import Mathlib

/-
  Verification of the retry-wrapped API client core of the
  air-quality-etl-pipeline repository.

  The embedding covers:
  * the exception-class hierarchy used by the code
    (requests.RequestException and friends, the domain errors of
    src/domain/exceptions.py, and RetryError of src/utils/retry.py);
  * the Backoff Executor `retry_with_backoff` of src/utils/retry.py,
    modelled as a function from a per-attempt operation behaviour to an
    execution trace (final outcome, number of invocations, and the list
    of back-off delays that were slept);
  * the Response Classifier `_handle_response` of
    src/adapters/openaq/openaq_repository.py together with the
    `Response.raise_for_status` semantics of the requests library it
    invokes (raise for status codes in [400, 600), return the parsed
    JSON payload otherwise).

  Delays are modelled over ℚ; the Python code computes them over IEEE
  doubles, but every formula proved here is the exact arithmetic the
  source writes down.
-/

namespace AirQualityETL

/-- The Python exception classes relevant to the core: the requests
transport exceptions, the domain error hierarchy of
src/domain/exceptions.py, RetryError of src/utils/retry.py, and two
stand-ins for unrelated exception classes (TypeError / ValueError, used
by the repository's tests for non-retryable failures). `exceptionBase`
is Python's `Exception`. -/
inductive ExcClass where
  | exceptionBase
  | requestException
  | timeoutExc
  | connectionErrorExc
  | httpErrorExc
  | airQualityError
  | apiError
  | authenticationError
  | rateLimitError
  | notFoundError
  | retryErrorCls
  | typeErrorExc
  | valueErrorExc
deriving DecidableEq, Repr

/-- The inheritance chain of each class, the class itself included,
mirroring the Python class definitions: the requests exceptions all
derive from `RequestException`, the domain errors derive
`AirQualityError → APIError → {AuthenticationError, RateLimitError,
NotFoundError}`, and `RetryError`, `TypeError`, `ValueError` derive from
`Exception` directly. -/
def ExcClass.ancestors : ExcClass → List ExcClass
  | .exceptionBase => [.exceptionBase]
  | .requestException => [.requestException, .exceptionBase]
  | .timeoutExc => [.timeoutExc, .requestException, .exceptionBase]
  | .connectionErrorExc => [.connectionErrorExc, .requestException, .exceptionBase]
  | .httpErrorExc => [.httpErrorExc, .requestException, .exceptionBase]
  | .airQualityError => [.airQualityError, .exceptionBase]
  | .apiError => [.apiError, .airQualityError, .exceptionBase]
  | .authenticationError =>
      [.authenticationError, .apiError, .airQualityError, .exceptionBase]
  | .rateLimitError =>
      [.rateLimitError, .apiError, .airQualityError, .exceptionBase]
  | .notFoundError =>
      [.notFoundError, .apiError, .airQualityError, .exceptionBase]
  | .retryErrorCls => [.retryErrorCls, .exceptionBase]
  | .typeErrorExc => [.typeErrorExc, .exceptionBase]
  | .valueErrorExc => [.valueErrorExc, .exceptionBase]

/-- Python `issubclass a b`. -/
def ExcClass.isSubclassOf (a b : ExcClass) : Bool :=
  decide (b ∈ a.ancestors)

/-- Python `isinstance(e, excTuple)` for an exception whose dynamic
class is `cls` and an `except (C1, C2, ...)` clause listing `excs`. -/
def matchesExceptClause (cls : ExcClass) (excs : List ExcClass) : Bool :=
  excs.any (fun c => cls.isSubclassOf c)

/-- A completed HTTP exchange as the code sees it: `requests.Response`
restricted to the accessors the core uses — `status_code`, `text` (the
raw body), the value `response.json()` parses to (kept abstract as a
string), and the `reason`/`url` fields interpolated into
`raise_for_status`'s error message. -/
structure Response where
  status_code : Int
  text : String
  jsonPayload : String
  reason : String
  url : String
deriving DecidableEq, Repr

/-- A Python exception value as the core manipulates it: its dynamic
class plus the attributes the code reads.  `httpStatus` is the
`requests.HTTPError` carrying a `response` attribute (both the one
synthesized by `retry_with_backoff` for retryable status codes and the
one raised by `raise_for_status`); `api` is the `APIError` family of
src/domain/exceptions.py with its `status_code` and `response_body`
attributes; `retrySome`/`retryNone` are `RetryError` with its
`last_exception` attribute holding an exception or `None`
(two constructors so that equality stays derivable; `mkRetryError`
below rebuilds the Python constructor taking an optional argument). -/
inductive Exc where
  | basic (cls : ExcClass) (message : String)
  | httpStatus (message : String) (response : Response)
  | api (cls : ExcClass) (message : String) (status_code : Int) (response_body : String)
  | retrySome (message : String) (last : Exc)
  | retryNone (message : String)
deriving DecidableEq, Repr

/-- `RetryError(message, last_exception=x)` for `x : Exception | None`. -/
def mkRetryError (message : String) : Option Exc → Exc
  | some e => Exc.retrySome message e
  | none => Exc.retryNone message

/-- The `last_exception` attribute of a `RetryError`
(`None` for any other exception class). -/
def Exc.last_exception : Exc → Option Exc
  | .retrySome _ e => some e
  | _ => none

/-- The dynamic class of an exception value. -/
def Exc.cls : Exc → ExcClass
  | .basic c _ => c
  | .httpStatus _ _ => .httpErrorExc
  | .api c _ _ _ => c
  | .retrySome _ _ => .retryErrorCls
  | .retryNone _ => .retryErrorCls

/-- Python `str(e)`: all of these exception classes pass a single
message to `Exception.__init__`, so `str` returns it. -/
def Exc.str : Exc → String
  | .basic _ m => m
  | .httpStatus m _ => m
  | .api _ m _ _ => m
  | .retrySome m _ => m
  | .retryNone m => m

/-- `DEFAULT_RETRY_EXCEPTIONS` of src/utils/retry.py:
`(requests.exceptions.RequestException, requests.exceptions.Timeout,
requests.exceptions.ConnectionError)`. -/
def DEFAULT_RETRY_EXCEPTIONS : List ExcClass :=
  [.requestException, .timeoutExc, .connectionErrorExc]

/-- `RETRYABLE_STATUS_CODES` of src/utils/retry.py. -/
def RETRYABLE_STATUS_CODES : List Int := [408, 429, 500, 502, 503, 504]

/-- The configuration arguments of `retry_with_backoff`
(src/utils/retry.py, lines 39-44).  `max_retries` is a Python int, so
it is modelled as ℤ (the documented precondition is that it be
non-negative, but the code accepts any int). -/
structure RetryPolicy where
  max_retries : Int
  base_delay : ℚ
  max_delay : ℚ
  exponential_base : ℚ
  exceptions : List ExcClass
deriving DecidableEq, Repr

/-- The outcome the wrapper hands its caller: a returned value or a
propagated exception. -/
inductive RunResult (α : Type) where
  | ok (value : α)
  | raised (e : Exc)
deriving DecidableEq, Repr

/-- The observable trace of one `wrapper(*args, **kwargs)` execution:
the outcome, how many times `func` was invoked, the delays passed to
`time.sleep` (in order), and whether the defensive post-loop `raise
RetryError(...)` after the `for` loop executed. -/
structure RunTrace (α : Type) where
  result : RunResult α
  calls : Nat
  delays : List ℚ
  unexpectedExit : Bool
deriving DecidableEq, Repr

/-- The `requests.HTTPError` the wrapper synthesizes for a response
with a retryable status code (src/utils/retry.py, lines 84-87). -/
def synthHTTPError (r : Response) : Exc :=
  Exc.httpStatus ("Retryable status code: " ++ toString r.status_code) r

/-- The body of one `try:` block of the wrapper for the part up to and
including the status-code check (src/utils/retry.py, lines 78-88):
given what `func` did on this attempt (`out`), either the attempt
raises (`Sum.inl`) — because `func` raised, or because the result was a
`requests.Response` whose status code is in `RETRYABLE_STATUS_CODES`,
in which case the code raises the synthesized `requests.HTTPError` — or
the attempt reaches `return result` (`Sum.inr`).  `asResp` is the
`isinstance(result, requests.Response)` view of the result type: it
yields the `Response` when the value is one, and `none` otherwise. -/
def attemptStep {α : Type} (asResp : α → Option Response) (out : Sum Exc α) :
    Sum Exc α :=
  match out with
  | Sum.inl e => Sum.inl e
  | Sum.inr result =>
    match asResp result with
    | some r =>
      if r.status_code ∈ RETRYABLE_STATUS_CODES then
        Sum.inl (synthHTTPError r)
      else Sum.inr result
    | none => Sum.inr result

/-- The delay computed before the attempt after attempt `i`
(src/utils/retry.py, lines 104-107):
`min(base_delay * (exponential_base ** attempt), max_delay)`. -/
def delayFor (p : RetryPolicy) (i : Nat) : ℚ :=
  min (p.base_delay * p.exponential_base ^ i) p.max_delay

/-- The message of the `RetryError` raised when retries are exhausted
(src/utils/retry.py, lines 95-98). -/
def exhaustedMsg (p : RetryPolicy) (e : Exc) : String :=
  "Failed after " ++ toString p.max_retries ++ " retries: " ++ e.str

/-- The message of the defensive post-loop `RetryError`
(src/utils/retry.py, lines 117-120). -/
def unexpectedExitMsg (fname : String) : String :=
  "Unexpected retry loop exit for " ++ fname

/-- The `for attempt in range(max_retries + 1)` loop of the wrapper.
`attempt` is the current 0-based attempt index, `last_exception` the
variable of the same name, and `remaining` the number of loop
iterations still to run (`range` semantics).  The per-attempt behaviour
of `func(*args, **kwargs)` is `op`: attempt index ↦ raised exception or
returned value.  Each branch mirrors the source: return the result on
success; on a raised exception, if it matches the `except exceptions`
clause either raise `RetryError` when `attempt == max_retries` or sleep
and continue, and otherwise let the exception propagate; after the loop
falls through, raise the defensive `RetryError`. -/
def retryLoop {α : Type} (p : RetryPolicy) (fname : String)
    (asResp : α → Option Response) (op : Nat → Sum Exc α)
    (attempt : Nat) (last_exception : Option Exc) :
    Nat → RunTrace α
  | 0 =>
    ⟨RunResult.raised (mkRetryError (unexpectedExitMsg fname) last_exception),
      0, [], true⟩
  | remaining + 1 =>
    match attemptStep asResp (op attempt) with
    | Sum.inr result => ⟨RunResult.ok result, 1, [], false⟩
    | Sum.inl e =>
      if matchesExceptClause e.cls p.exceptions then
        if (attempt : Int) = p.max_retries then
          ⟨RunResult.raised (mkRetryError (exhaustedMsg p e) (some e)),
            1, [], false⟩
        else
          let rest := retryLoop p fname asResp op (attempt + 1) (some e) remaining
          ⟨rest.result, rest.calls + 1, delayFor p attempt :: rest.delays,
            rest.unexpectedExit⟩
      else ⟨RunResult.raised e, 1, [], false⟩

/-- `retry_with_backoff(...)(func)(*args, **kwargs)` as a whole
(src/utils/retry.py, lines 72-121): run the attempt loop from attempt 0
with `last_exception = None` for `range(max_retries + 1)` iterations
(an empty range when `max_retries < 0`). -/
def retry_with_backoff {α : Type} (p : RetryPolicy) (fname : String)
    (asResp : α → Option Response) (op : Nat → Sum Exc α) : RunTrace α :=
  retryLoop p fname asResp op 0 none (p.max_retries + 1).toNat

/-- The view of a result type that is never a `requests.Response`
(e.g. the parsed-payload dictionaries the adapter methods return). -/
def notAResponse {α : Type} : α → Option Response := fun _ => none

/-- The view of a result that is itself the `requests.Response`. -/
def asResponse : Response → Option Response := some

/-- `requests.Response.raise_for_status`: build the `HTTPError` message
for status codes in [400, 500) (`Client Error`) and [500, 600)
(`Server Error`), and `none` (no raise) for every other status. -/
def http_error_msg (r : Response) : Option String :=
  if 400 ≤ r.status_code ∧ r.status_code < 500 then
    some (toString r.status_code ++ " Client Error: " ++ r.reason
      ++ " for url: " ++ r.url)
  else if 500 ≤ r.status_code ∧ r.status_code < 600 then
    some (toString r.status_code ++ " Server Error: " ++ r.reason
      ++ " for url: " ++ r.url)
  else none

/-- `OpenAQRepository._handle_response`
(src/adapters/openaq/openaq_repository.py, lines 58-108): call
`raise_for_status`; when it does not raise, return `response.json()`;
when it raises an `HTTPError`, map the status code through the
401/403 → AuthenticationError, 404 → NotFoundError,
429 → RateLimitError, otherwise → APIError chain, each error carrying
the status code and the raw body `response.text`. -/
def handle_response (r : Response) : Sum Exc String :=
  match http_error_msg r with
  | none => Sum.inr r.jsonPayload
  | some m =>
    if r.status_code = 401 ∨ r.status_code = 403 then
      Sum.inl (Exc.api .authenticationError ("Authentication failed: " ++ m)
        r.status_code r.text)
    else if r.status_code = 404 then
      Sum.inl (Exc.api .notFoundError ("Resource not found: " ++ m)
        r.status_code r.text)
    else if r.status_code = 429 then
      Sum.inl (Exc.api .rateLimitError ("Rate limit exceeded: " ++ m)
        r.status_code r.text)
    else
      Sum.inl (Exc.api .apiError ("API request failed: " ++ m)
        r.status_code r.text)

/-- One adapter method attempt (e.g. `get_countries`): perform the
transport request — which either raises a transport exception or
completes with a `requests.Response` — and pass the completed response
through `_handle_response`.  The attempt's value is the parsed payload,
never the raw `Response` object. -/
def apiCall (fetch : Nat → Sum Exc Response) (attempt : Nat) : Sum Exc String :=
  match fetch attempt with
  | Sum.inl e => Sum.inl e
  | Sum.inr r => handle_response r

/-- The classifier's message for 401/403, as a total function of the
response (`http_error_msg` is always `some` on the branch that uses it). -/
def authFailMsg (r : Response) : String :=
  "Authentication failed: " ++ (http_error_msg r).getD ""

/-- The classifier's message for 404. -/
def notFoundMsg (r : Response) : String :=
  "Resource not found: " ++ (http_error_msg r).getD ""

/-- The classifier's message for 429. -/
def rateLimitMsg (r : Response) : String :=
  "Rate limit exceeded: " ++ (http_error_msg r).getD ""

/-- The classifier's message for any other 4xx/5xx status. -/
def apiFailMsg (r : Response) : String :=
  "API request failed: " ++ (http_error_msg r).getD ""

/-- The error classes `_handle_response` can raise. -/
def classifiedClasses : List ExcClass :=
  [.authenticationError, .notFoundError, .rateLimitError, .apiError]

section BasicLemmas

/-- A raised exception passes through the attempt body unchanged. -/
theorem attemptStep_inl {α : Type} (asResp : α → Option Response) (e : Exc) :
    attemptStep asResp (Sum.inl e) = Sum.inl e := rfl

/-- A returned value whose status (when it is a response at all) is not
retryable reaches `return result`. -/
theorem attemptStep_inr {α : Type} (asResp : α → Option Response) (a : α)
    (h : ∀ r, asResp a = some r → r.status_code ∉ RETRYABLE_STATUS_CODES) :
    attemptStep asResp (Sum.inr a) = Sum.inr a := by
  cases hr : asResp a with
  | none => simp only [attemptStep, hr]
  | some r => simp only [attemptStep, hr, if_neg (h r hr)]

/-- A returned response with a retryable status code turns into the
synthesized `HTTPError`. -/
theorem attemptStep_retryable_status (r : Response)
    (h : r.status_code ∈ RETRYABLE_STATUS_CODES) :
    attemptStep asResponse (Sum.inr r) = Sum.inl (synthHTTPError r) := by
  unfold attemptStep asResponse
  simp only [if_pos h]

/-- A value that is not a `requests.Response` is never status-checked. -/
theorem attemptStep_notAResponse {α : Type} (out : Sum Exc α) :
    attemptStep notAResponse out = out := by
  cases out <;> rfl

/-- No attribute of a `RetryError` depends on how the option was
packed: its class is `RetryError` and its `last_exception` is the
packed option. -/
theorem mkRetryError_cls (m : String) (o : Option Exc) :
    (mkRetryError m o).cls = ExcClass.retryErrorCls := by
  cases o <;> rfl

/-- The `last_exception` attribute of a packed `RetryError`. -/
theorem mkRetryError_last (m : String) (o : Option Exc) :
    (mkRetryError m o).last_exception = o := by
  cases o <;> rfl

/-- Case analysis of `_handle_response`: for a status outside
[400, 600) `raise_for_status` does not raise and the parsed payload is
returned; inside [400, 600) the error raised is the first match of the
401/403 → 404 → 429 → otherwise chain, carrying the status code and the
raw body. -/
theorem handle_response_cases (r : Response) :
    (¬ (400 ≤ r.status_code ∧ r.status_code < 600) →
      handle_response r = Sum.inr r.jsonPayload) ∧
    ((400 ≤ r.status_code ∧ r.status_code < 600) →
      ((r.status_code = 401 ∨ r.status_code = 403 →
        handle_response r = Sum.inl
          (Exc.api .authenticationError (authFailMsg r) r.status_code r.text)) ∧
      (r.status_code = 404 →
        handle_response r = Sum.inl
          (Exc.api .notFoundError (notFoundMsg r) r.status_code r.text)) ∧
      (r.status_code = 429 →
        handle_response r = Sum.inl
          (Exc.api .rateLimitError (rateLimitMsg r) r.status_code r.text)) ∧
      (r.status_code ≠ 401 → r.status_code ≠ 403 → r.status_code ≠ 404 →
        r.status_code ≠ 429 →
        handle_response r = Sum.inl
          (Exc.api .apiError (apiFailMsg r) r.status_code r.text)))) := by
  have hmsg : ∀ m, http_error_msg r = some m →
      (http_error_msg r).getD "" = m := by
    intro m hm
    rw [hm]
    rfl
  constructor
  · intro hout
    unfold handle_response http_error_msg
    have h1 : ¬ (400 ≤ r.status_code ∧ r.status_code < 500) := by omega
    have h2 : ¬ (500 ≤ r.status_code ∧ r.status_code < 600) := by omega
    simp only [if_neg h1, if_neg h2]
  · intro hin
    have hsome : ∃ m, http_error_msg r = some m := by
      unfold http_error_msg
      by_cases h1 : 400 ≤ r.status_code ∧ r.status_code < 500
      · rw [if_pos h1]
        exact ⟨_, rfl⟩
      · have h2 : 500 ≤ r.status_code ∧ r.status_code < 600 := by omega
        rw [if_neg h1, if_pos h2]
        exact ⟨_, rfl⟩
    obtain ⟨m, hm⟩ := hsome
    refine ⟨?_, ?_, ?_, ?_⟩
    · intro hsc
      unfold handle_response
      rw [hm]
      simp only [if_pos hsc, authFailMsg, hmsg m hm]
    · intro hsc
      unfold handle_response
      rw [hm]
      have : ¬ (r.status_code = 401 ∨ r.status_code = 403) := by omega
      simp only [if_neg this, if_pos hsc, notFoundMsg, hmsg m hm]
    · intro hsc
      unfold handle_response
      rw [hm]
      have h1 : ¬ (r.status_code = 401 ∨ r.status_code = 403) := by omega
      have h2 : ¬ (r.status_code = 404) := by omega
      simp only [if_neg h1, if_neg h2, if_pos hsc, rateLimitMsg, hmsg m hm]
    · intro hne1 hne2 hne3 hne4
      unfold handle_response
      rw [hm]
      have h1 : ¬ (r.status_code = 401 ∨ r.status_code = 403) := by
        omega
      simp only [if_neg h1, if_neg hne3, if_neg hne4, apiFailMsg, hmsg m hm]

/-- Everything `_handle_response` raises is one of the four classified
domain errors, and it carries the response's status code and raw body. -/
theorem handle_response_inl_shape (r : Response) (e : Exc)
    (h : handle_response r = Sum.inl e) :
    e.cls ∈ classifiedClasses ∧
    ∃ c m, e = Exc.api c m r.status_code r.text := by
  unfold handle_response at h
  split at h
  · exact absurd h (by simp)
  · split at h
    · injection h with h
      subst h
      exact ⟨by simp [Exc.cls, classifiedClasses], _, _, rfl⟩
    · split at h
      · injection h with h
        subst h
        exact ⟨by simp [Exc.cls, classifiedClasses], _, _, rfl⟩
      · split at h
        · injection h with h
          subst h
          exact ⟨by simp [Exc.cls, classifiedClasses], _, _, rfl⟩
        · injection h with h
          subst h
          exact ⟨by simp [Exc.cls, classifiedClasses], _, _, rfl⟩

end BasicLemmas

section LoopLemmas

variable {α : Type} (p : RetryPolicy) (fname : String)
variable (asResp : α → Option Response) (op : Nat → Sum Exc α)

/-- Unfolding: an exhausted `range` falls through to the defensive
post-loop raise. -/
theorem retryLoop_zero (attempt : Nat) (last : Option Exc) :
    retryLoop p fname asResp op attempt last 0 =
      ⟨RunResult.raised (mkRetryError (unexpectedExitMsg fname) last),
        0, [], true⟩ := rfl

/-- Unfolding: an attempt that reaches `return result`. -/
theorem retryLoop_succ_ok {attempt : Nat} {a : α} (last : Option Exc)
    (rem : Nat) (h : attemptStep asResp (op attempt) = Sum.inr a) :
    retryLoop p fname asResp op attempt last (rem + 1) =
      ⟨RunResult.ok a, 1, [], false⟩ := by
  simp only [retryLoop, h]

/-- Unfolding: an attempt that raises an exception outside the
`except exceptions` clause lets it propagate. -/
theorem retryLoop_succ_nomatch {attempt : Nat} {e : Exc} (last : Option Exc)
    (rem : Nat) (h : attemptStep asResp (op attempt) = Sum.inl e)
    (hm : matchesExceptClause e.cls p.exceptions = false) :
    retryLoop p fname asResp op attempt last (rem + 1) =
      ⟨RunResult.raised e, 1, [], false⟩ := by
  simp only [retryLoop, h, hm, Bool.false_eq_true, if_false]

/-- Unfolding: a caught failure on the last allowed attempt raises the
terminal `RetryError`. -/
theorem retryLoop_succ_final {attempt : Nat} {e : Exc} (last : Option Exc)
    (rem : Nat) (h : attemptStep asResp (op attempt) = Sum.inl e)
    (hm : matchesExceptClause e.cls p.exceptions = true)
    (hfin : (attempt : Int) = p.max_retries) :
    retryLoop p fname asResp op attempt last (rem + 1) =
      ⟨RunResult.raised (mkRetryError (exhaustedMsg p e) (some e)),
        1, [], false⟩ := by
  simp only [retryLoop, h, hm, hfin, if_true]

/-- Unfolding: a caught failure on a non-final attempt sleeps the
computed delay and continues with the next attempt. -/
theorem retryLoop_succ_retry {attempt : Nat} {e : Exc} (last : Option Exc)
    (rem : Nat) (h : attemptStep asResp (op attempt) = Sum.inl e)
    (hm : matchesExceptClause e.cls p.exceptions = true)
    (hfin : (attempt : Int) ≠ p.max_retries) :
    retryLoop p fname asResp op attempt last (rem + 1) =
      { result := (retryLoop p fname asResp op (attempt + 1) (some e) rem).result
        calls := (retryLoop p fname asResp op (attempt + 1) (some e) rem).calls + 1
        delays := delayFor p attempt ::
          (retryLoop p fname asResp op (attempt + 1) (some e) rem).delays
        unexpectedExit :=
          (retryLoop p fname asResp op (attempt + 1) (some e) rem).unexpectedExit } := by
  simp only [retryLoop, h, hm, hfin, if_true, if_false]

/-- Field view of the retry branch: the final outcome is the outcome
of the remaining attempts. -/
theorem retryLoop_succ_retry_result {attempt : Nat} {e : Exc} (last : Option Exc)
    (rem : Nat) (h : attemptStep asResp (op attempt) = Sum.inl e)
    (hm : matchesExceptClause e.cls p.exceptions = true)
    (hfin : (attempt : Int) ≠ p.max_retries) :
    (retryLoop p fname asResp op attempt last (rem + 1)).result =
      (retryLoop p fname asResp op (attempt + 1) (some e) rem).result := by
  rw [retryLoop_succ_retry p fname asResp op last rem h hm hfin]

/-- Field view of the retry branch: one invocation happened, plus those
of the remaining attempts. -/
theorem retryLoop_succ_retry_calls {attempt : Nat} {e : Exc} (last : Option Exc)
    (rem : Nat) (h : attemptStep asResp (op attempt) = Sum.inl e)
    (hm : matchesExceptClause e.cls p.exceptions = true)
    (hfin : (attempt : Int) ≠ p.max_retries) :
    (retryLoop p fname asResp op attempt last (rem + 1)).calls =
      (retryLoop p fname asResp op (attempt + 1) (some e) rem).calls + 1 := by
  rw [retryLoop_succ_retry p fname asResp op last rem h hm hfin]

/-- Field view of the retry branch: this attempt's computed delay was
slept, then the remaining attempts' delays. -/
theorem retryLoop_succ_retry_delays {attempt : Nat} {e : Exc} (last : Option Exc)
    (rem : Nat) (h : attemptStep asResp (op attempt) = Sum.inl e)
    (hm : matchesExceptClause e.cls p.exceptions = true)
    (hfin : (attempt : Int) ≠ p.max_retries) :
    (retryLoop p fname asResp op attempt last (rem + 1)).delays =
      delayFor p attempt ::
        (retryLoop p fname asResp op (attempt + 1) (some e) rem).delays := by
  rw [retryLoop_succ_retry p fname asResp op last rem h hm hfin]

/-- Field view of the retry branch: the defensive post-loop branch runs
on this execution iff it runs on the remaining attempts. -/
theorem retryLoop_succ_retry_unexp {attempt : Nat} {e : Exc} (last : Option Exc)
    (rem : Nat) (h : attemptStep asResp (op attempt) = Sum.inl e)
    (hm : matchesExceptClause e.cls p.exceptions = true)
    (hfin : (attempt : Int) ≠ p.max_retries) :
    (retryLoop p fname asResp op attempt last (rem + 1)).unexpectedExit =
      (retryLoop p fname asResp op (attempt + 1) (some e) rem).unexpectedExit := by
  rw [retryLoop_succ_retry p fname asResp op last rem h hm hfin]

/-- When every attempt raises a failure caught by the `except` clause,
the loop walks all remaining attempts and ends in the terminal
`RetryError` wrapping the last attempt's exception, having invoked the
operation once per remaining iteration. -/
theorem retryLoop_allFail (E : Nat → Exc)
    (hop : ∀ i, attemptStep asResp (op i) = Sum.inl (E i))
    (hm : ∀ i, matchesExceptClause (E i).cls p.exceptions = true) :
    ∀ (r attempt : Nat) (last : Option Exc),
      (attempt : Int) + (r : Int) = p.max_retries →
      (retryLoop p fname asResp op attempt last (r + 1)).result =
        RunResult.raised (mkRetryError (exhaustedMsg p (E (attempt + r)))
          (some (E (attempt + r)))) ∧
      (retryLoop p fname asResp op attempt last (r + 1)).calls = r + 1 := by
  intro r
  induction r with
  | zero =>
    intro attempt last hinv
    have hfin : (attempt : Int) = p.max_retries := by omega
    rw [retryLoop_succ_final p fname asResp op last 0 (hop attempt)
      (hm attempt) hfin]
    exact ⟨rfl, rfl⟩
  | succ r ih =>
    intro attempt last hinv
    have hfin : (attempt : Int) ≠ p.max_retries := by
      push_cast at hinv
      omega
    have hinv2 : ((attempt + 1 : Nat) : Int) + (r : Int) = p.max_retries := by
      push_cast at hinv ⊢
      omega
    obtain ⟨h1, h2⟩ := ih (attempt + 1) (some (E attempt)) hinv2
    have hidx : attempt + 1 + r = attempt + (r + 1) := by omega
    constructor
    · rw [retryLoop_succ_retry_result p fname asResp op last (r + 1)
        (hop attempt) (hm attempt) hfin, h1, hidx]
    · rw [retryLoop_succ_retry_calls p fname asResp op last (r + 1)
        (hop attempt) (hm attempt) hfin, h2]

/-- Every slept delay is the exponential-backoff formula at the attempt
index it follows: the `i`-th recorded delay of a loop started at
`attempt` is `delayFor p (attempt + i)`. -/
theorem retryLoop_delays_idx :
    ∀ (rem attempt : Nat) (last : Option Exc) (i : Nat),
      i < (retryLoop p fname asResp op attempt last rem).delays.length →
      (retryLoop p fname asResp op attempt last rem).delays.get? i =
        some (delayFor p (attempt + i)) := by
  intro rem
  induction rem with
  | zero =>
    intro attempt last i h
    rw [retryLoop_zero] at h
    simp at h
  | succ rem ih =>
    intro attempt last i h
    cases hstep : attemptStep asResp (op attempt) with
    | inr a =>
      rw [retryLoop_succ_ok p fname asResp op last rem hstep] at h
      simp at h
    | inl e =>
      by_cases hmm : matchesExceptClause e.cls p.exceptions = true
      · by_cases hfin : (attempt : Int) = p.max_retries
        · rw [retryLoop_succ_final p fname asResp op last rem hstep hmm hfin] at h
          simp at h
        · rw [retryLoop_succ_retry_delays p fname asResp op last rem hstep hmm hfin]
            at h ⊢
          cases i with
          | zero => simp
          | succ i =>
            simp only [List.length_cons, Nat.add_lt_add_iff_right] at h
            rw [List.get?_cons_succ]
            have hi := ih (attempt + 1) (some e) i h
            rw [hi]
            have hidx : attempt + 1 + i = attempt + (i + 1) := by omega
            rw [hidx]
      · have hmm2 : matchesExceptClause e.cls p.exceptions = false := by
          simpa using hmm
        rw [retryLoop_succ_nomatch p fname asResp op last rem hstep hmm2] at h
        simp at h

/-- Inversion of the attempt body: a value that reaches
`return result` cannot be a response with a retryable status code. -/
theorem attemptStep_inr_inv {out : Sum Exc α} {a : α}
    (h : attemptStep asResp out = Sum.inr a) :
    ∀ r, asResp a = some r → r.status_code ∉ RETRYABLE_STATUS_CODES := by
  intro r hr
  cases out with
  | inl e => simp [attemptStep] at h
  | inr v =>
    simp only [attemptStep] at h
    cases hv : asResp v with
    | none =>
      rw [hv] at h
      simp only at h
      injection h with h
      subst h
      rw [hv] at hr
      cases hr
    | some rv =>
      rw [hv] at h
      simp only at h
      split at h
      · cases h
      · injection h with h
        subst h
        rw [hv] at hr
        injection hr with hr
        subst hr
        assumption

/-- A value the wrapper returns as a success is never a response with a
retryable status code: the status check turns it into a raised
exception before `return result`. -/
theorem retryLoop_ok_status :
    ∀ (rem attempt : Nat) (last : Option Exc) (a : α),
      (retryLoop p fname asResp op attempt last rem).result = RunResult.ok a →
      ∀ r, asResp a = some r → r.status_code ∉ RETRYABLE_STATUS_CODES := by
  intro rem
  induction rem with
  | zero =>
    intro attempt last a h
    rw [retryLoop_zero] at h
    cases h
  | succ rem ih =>
    intro attempt last a h
    cases hstep : attemptStep asResp (op attempt) with
    | inr b =>
      rw [retryLoop_succ_ok p fname asResp op last rem hstep] at h
      simp only [RunResult.ok.injEq] at h
      subst h
      exact attemptStep_inr_inv asResp hstep
    | inl e =>
      by_cases hmm : matchesExceptClause e.cls p.exceptions = true
      · by_cases hfin : (attempt : Int) = p.max_retries
        · rw [retryLoop_succ_final p fname asResp op last rem hstep hmm hfin] at h
          cases h
        · rw [retryLoop_succ_retry_result p fname asResp op last rem hstep hmm hfin]
            at h
          exact ih (attempt + 1) (some e) a h
      · have hmm2 : matchesExceptClause e.cls p.exceptions = false := by
          simpa using hmm
        rw [retryLoop_succ_nomatch p fname asResp op last rem hstep hmm2] at h
        cases h

/-- For a wrapped operation whose result is never a `requests.Response`
(the adapter methods return parsed dictionaries), every exception the
wrapper lets escape is either a `RetryError` or an exception the
operation itself raised that misses the `except` clause — here
abstracted by any predicate `P` covering the latter. -/
theorem retryLoop_raised_shape (P : Exc → Prop)
    (hop : ∀ i e, op i = Sum.inl e →
      matchesExceptClause e.cls p.exceptions = true ∨ P e) :
    ∀ (rem attempt : Nat) (last : Option Exc) (e : Exc),
      (retryLoop p fname notAResponse op attempt last rem).result =
        RunResult.raised e →
      e.cls = ExcClass.retryErrorCls ∨ P e := by
  intro rem
  induction rem with
  | zero =>
    intro attempt last e h
    rw [retryLoop_zero] at h
    simp only [RunResult.raised.injEq] at h
    subst h
    exact Or.inl (mkRetryError_cls _ _)
  | succ rem ih =>
    intro attempt last e h
    cases hstep : op attempt with
    | inr a =>
      have hstep2 : attemptStep notAResponse (op attempt) = Sum.inr a := by
        rw [attemptStep_notAResponse, hstep]
      rw [retryLoop_succ_ok p fname notAResponse op last rem hstep2] at h
      cases h
    | inl e1 =>
      have hstep2 : attemptStep notAResponse (op attempt) = Sum.inl e1 := by
        rw [attemptStep_notAResponse, hstep]
      by_cases hmm : matchesExceptClause e1.cls p.exceptions = true
      · by_cases hfin : (attempt : Int) = p.max_retries
        · rw [retryLoop_succ_final p fname notAResponse op last rem hstep2 hmm hfin]
            at h
          simp only [RunResult.raised.injEq] at h
          subst h
          exact Or.inl (mkRetryError_cls _ _)
        · rw [retryLoop_succ_retry_result p fname notAResponse op last rem hstep2
            hmm hfin] at h
          exact ih (attempt + 1) (some e1) e h
      · have hmm2 : matchesExceptClause e1.cls p.exceptions = false := by
          simpa using hmm
        rw [retryLoop_succ_nomatch p fname notAResponse op last rem hstep2 hmm2]
          at h
        simp only [RunResult.raised.injEq] at h
        subst h
        rcases hop attempt e1 hstep with hc | hP
        · rw [hc] at hmm2
          cases hmm2
        · exact Or.inr hP

/-- When attempts `attempt .. attempt+j-1` raise caught retryable
failures on non-final attempts and attempt `attempt+j` reaches
`return`, the loop returns that value having invoked the operation
`j + 1` times. -/
theorem retryLoop_succeedsAt (E : Nat → Exc) (a : α) :
    ∀ (j attempt rem : Nat) (last : Option Exc),
      (∀ i, i < j →
        attemptStep asResp (op (attempt + i)) = Sum.inl (E (attempt + i)) ∧
        matchesExceptClause (E (attempt + i)).cls p.exceptions = true ∧
        ((attempt + i : Nat) : Int) ≠ p.max_retries) →
      attemptStep asResp (op (attempt + j)) = Sum.inr a →
      j < rem →
      (retryLoop p fname asResp op attempt last rem).result = RunResult.ok a ∧
      (retryLoop p fname asResp op attempt last rem).calls = j + 1 := by
  intro j
  induction j with
  | zero =>
    intro attempt rem last hpre hsucc hlt
    obtain ⟨rem, rfl⟩ : ∃ r, rem = r + 1 := ⟨rem - 1, by omega⟩
    rw [Nat.add_zero] at hsucc
    rw [retryLoop_succ_ok p fname asResp op last rem hsucc]
    exact ⟨rfl, rfl⟩
  | succ j ih =>
    intro attempt rem last hpre hsucc hlt
    obtain ⟨rem, rfl⟩ : ∃ r, rem = r + 1 := ⟨rem - 1, by omega⟩
    obtain ⟨h0, hm0, hf0⟩ := hpre 0 (Nat.succ_pos j)
    rw [Nat.add_zero] at h0 hm0 hf0
    have hpre2 : ∀ i, i < j →
        attemptStep asResp (op (attempt + 1 + i)) = Sum.inl (E (attempt + 1 + i)) ∧
        matchesExceptClause (E (attempt + 1 + i)).cls p.exceptions = true ∧
        ((attempt + 1 + i : Nat) : Int) ≠ p.max_retries := by
      intro i hi
      have hidx : attempt + 1 + i = attempt + (i + 1) := by omega
      rw [hidx]
      exact hpre (i + 1) (by omega)
    have hsucc2 : attemptStep asResp (op (attempt + 1 + j)) = Sum.inr a := by
      have hidx : attempt + 1 + j = attempt + (j + 1) := by omega
      rw [hidx]
      exact hsucc
    obtain ⟨hr, hc⟩ := ih (attempt + 1) rem (some (E attempt)) hpre2 hsucc2
      (by omega)
    constructor
    · rw [retryLoop_succ_retry_result p fname asResp op last rem h0 hm0 hf0]
      exact hr
    · rw [retryLoop_succ_retry_calls p fname asResp op last rem h0 hm0 hf0, hc]

/-- When attempts `attempt .. attempt+j-1` raise caught retryable
failures on non-final attempts and attempt `attempt+j` raises an
exception outside the `except` clause, that exception propagates
unwrapped and the operation was invoked `j + 1` times. -/
theorem retryLoop_nonRetryableAt (E : Nat → Exc) (e : Exc) :
    ∀ (j attempt rem : Nat) (last : Option Exc),
      (∀ i, i < j →
        attemptStep asResp (op (attempt + i)) = Sum.inl (E (attempt + i)) ∧
        matchesExceptClause (E (attempt + i)).cls p.exceptions = true ∧
        ((attempt + i : Nat) : Int) ≠ p.max_retries) →
      attemptStep asResp (op (attempt + j)) = Sum.inl e →
      matchesExceptClause e.cls p.exceptions = false →
      j < rem →
      (retryLoop p fname asResp op attempt last rem).result =
        RunResult.raised e ∧
      (retryLoop p fname asResp op attempt last rem).calls = j + 1 := by
  intro j
  induction j with
  | zero =>
    intro attempt rem last hpre hraise hnm hlt
    obtain ⟨rem, rfl⟩ : ∃ r, rem = r + 1 := ⟨rem - 1, by omega⟩
    rw [Nat.add_zero] at hraise
    rw [retryLoop_succ_nomatch p fname asResp op last rem hraise hnm]
    exact ⟨rfl, rfl⟩
  | succ j ih =>
    intro attempt rem last hpre hraise hnm hlt
    obtain ⟨rem, rfl⟩ : ∃ r, rem = r + 1 := ⟨rem - 1, by omega⟩
    obtain ⟨h0, hm0, hf0⟩ := hpre 0 (Nat.succ_pos j)
    rw [Nat.add_zero] at h0 hm0 hf0
    have hpre2 : ∀ i, i < j →
        attemptStep asResp (op (attempt + 1 + i)) = Sum.inl (E (attempt + 1 + i)) ∧
        matchesExceptClause (E (attempt + 1 + i)).cls p.exceptions = true ∧
        ((attempt + 1 + i : Nat) : Int) ≠ p.max_retries := by
      intro i hi
      have hidx : attempt + 1 + i = attempt + (i + 1) := by omega
      rw [hidx]
      exact hpre (i + 1) (by omega)
    have hraise2 : attemptStep asResp (op (attempt + 1 + j)) = Sum.inl e := by
      have hidx : attempt + 1 + j = attempt + (j + 1) := by omega
      rw [hidx]
      exact hraise
    obtain ⟨hr, hc⟩ := ih (attempt + 1) rem (some (E attempt)) hpre2 hraise2 hnm
      (by omega)
    constructor
    · rw [retryLoop_succ_retry_result p fname asResp op last rem h0 hm0 hf0]
      exact hr
    · rw [retryLoop_succ_retry_calls p fname asResp op last rem h0 hm0 hf0, hc]

/-- As long as at least one loop iteration remains and the iteration
count matches `range(max_retries + 1)` (which holds whenever
`max_retries ≥ 0`), the defensive post-loop branch never executes. -/
theorem retryLoop_no_unexpected :
    ∀ (rem attempt : Nat) (last : Option Exc),
      1 ≤ rem →
      (attempt : Int) + (rem : Int) = p.max_retries + 1 →
      (retryLoop p fname asResp op attempt last rem).unexpectedExit = false := by
  intro rem
  induction rem with
  | zero =>
    intro attempt last h1
    omega
  | succ rem ih =>
    intro attempt last h1 hinv
    cases hstep : attemptStep asResp (op attempt) with
    | inr a =>
      rw [retryLoop_succ_ok p fname asResp op last rem hstep]
    | inl e =>
      by_cases hmm : matchesExceptClause e.cls p.exceptions = true
      · by_cases hfin : (attempt : Int) = p.max_retries
        · rw [retryLoop_succ_final p fname asResp op last rem hstep hmm hfin]
        · rw [retryLoop_succ_retry_unexp p fname asResp op last rem hstep hmm hfin]
          have hrem : 1 ≤ rem := by
            push_cast at hinv
            omega
          apply ih (attempt + 1) (some e) hrem
          push_cast at hinv ⊢
          omega
      · have hmm2 : matchesExceptClause e.cls p.exceptions = false := by
          simpa using hmm
        rw [retryLoop_succ_nomatch p fname asResp op last rem hstep hmm2]

/-- If the defensive post-loop branch does execute, the outcome is the
post-loop `RetryError`, never an undefined return value. -/
theorem retryLoop_unexpected_shape :
    ∀ (rem attempt : Nat) (last : Option Exc),
      (retryLoop p fname asResp op attempt last rem).unexpectedExit = true →
      ∃ l, (retryLoop p fname asResp op attempt last rem).result =
        RunResult.raised (mkRetryError (unexpectedExitMsg fname) l) := by
  intro rem
  induction rem with
  | zero =>
    intro attempt last h
    exact ⟨last, by rw [retryLoop_zero]⟩
  | succ rem ih =>
    intro attempt last h
    cases hstep : attemptStep asResp (op attempt) with
    | inr a =>
      rw [retryLoop_succ_ok p fname asResp op last rem hstep] at h
      cases h
    | inl e =>
      by_cases hmm : matchesExceptClause e.cls p.exceptions = true
      · by_cases hfin : (attempt : Int) = p.max_retries
        · rw [retryLoop_succ_final p fname asResp op last rem hstep hmm hfin] at h
          cases h
        · rw [retryLoop_succ_retry_unexp p fname asResp op last rem hstep hmm hfin]
            at h
          obtain ⟨l, hl⟩ := ih (attempt + 1) (some e) h
          refine ⟨l, ?_⟩
          rw [retryLoop_succ_retry_result p fname asResp op last rem hstep hmm hfin]
          exact hl
      · have hmm2 : matchesExceptClause e.cls p.exceptions = false := by
          simpa using hmm
        rw [retryLoop_succ_nomatch p fname asResp op last rem hstep hmm2] at h
        cases h

/-- A loop of exactly one remaining iteration invokes the operation
exactly once, whatever the outcome. -/
theorem retryLoop_one_call (attempt : Nat) (last : Option Exc) :
    (retryLoop p fname asResp op attempt last 1).calls = 1 := by
  cases hstep : attemptStep asResp (op attempt) with
  | inr a =>
    rw [retryLoop_succ_ok p fname asResp op last 0 hstep]
  | inl e =>
    by_cases hmm : matchesExceptClause e.cls p.exceptions = true
    · by_cases hfin : (attempt : Int) = p.max_retries
      · rw [retryLoop_succ_final p fname asResp op last 0 hstep hmm hfin]
      · rw [retryLoop_succ_retry_calls p fname asResp op last 0 hstep hmm hfin,
          retryLoop_zero]
    · have hmm2 : matchesExceptClause e.cls p.exceptions = false := by
        simpa using hmm
      rw [retryLoop_succ_nomatch p fname asResp op last 0 hstep hmm2]

end LoopLemmas

/-
  Concrete fixtures used by the witness theorems below.
-/

/-- The adapter's policy: `@retry_with_backoff(max_retries=3,
base_delay=1.0)` resolves to these arguments, here with
`max_retries = 2` where a smaller run suffices. -/
def wPolicyA : RetryPolicy := ⟨2, 1, 60, 2, DEFAULT_RETRY_EXCEPTIONS⟩

/-- A policy with `max_retries = 0`. -/
def wPolicyZero : RetryPolicy := ⟨0, 1, 60, 2, DEFAULT_RETRY_EXCEPTIONS⟩

/-- A policy violating the documented non-negative precondition. -/
def wPolicyNeg : RetryPolicy := ⟨-1, 1, 60, 2, DEFAULT_RETRY_EXCEPTIONS⟩

/-- The configuration of `test_does_not_retry_unexpected_exception`:
`max_retries=3, base_delay=0.01, exceptions=(ValueError,)`. -/
def wPolicyV : RetryPolicy := ⟨3, 1 / 100, 60, 2, [.valueErrorExc]⟩

/-- A `requests.Timeout` transport failure. -/
def wTimeout : Exc := Exc.basic .timeoutExc "connection timed out"

/-- A `TypeError`, outside every retryable set used by the code. -/
def wTypeErr : Exc := Exc.basic .typeErrorExc "Not retryable"

/-- A completed 500 response. -/
def wResp500 : Response :=
  ⟨500, "internal error", "payload500", "Internal Server Error", "u500"⟩

/-- A completed 401 response. -/
def wResp401 : Response := ⟨401, "unauthorized", "p401", "Unauthorized", "u401"⟩

/-- A completed 404 response. -/
def wResp404 : Response := ⟨404, "missing", "p404", "Not Found", "u404"⟩

/-- A completed 304 response: not a success status, yet not an error
status either in `raise_for_status`'s sense. -/
def wResp304 : Response :=
  ⟨304, "not modified body", "payload304", "Not Modified", "u304"⟩

/-- A completed 200 response. -/
def wRespOK : Response := ⟨200, "ok body", "okpayload", "OK", "uok"⟩

/-- An operation that always raises `requests.Timeout`. -/
def wOpA : Nat → Sum Exc String := fun _ => Sum.inl wTimeout

/-- An operation that always raises a `ConnectionError`. -/
def wOpB : Nat → Sum Exc String :=
  fun _ => Sum.inl (Exc.basic .connectionErrorExc "connection refused")

/-- An operation that always raises `TypeError`. -/
def wOpC : Nat → Sum Exc String := fun _ => Sum.inl wTypeErr

/-- An operation that fails with `Timeout` on attempt 0 and returns
`"ok"` from attempt 1 on. -/
def wOpD : Nat → Sum Exc String :=
  fun i => if i = 0 then Sum.inl wTimeout else Sum.inr "ok"

/-- A transport returning a 500 response on every attempt. -/
def wOp500 : Nat → Sum Exc Response := fun _ => Sum.inr wResp500

/-- A transport returning a 401 response on every attempt. -/
def wFetch401 : Nat → Sum Exc Response := fun _ => Sum.inr wResp401

/-- A transport returning a 200 response on every attempt. -/
def wOpOK : Nat → Sum Exc Response := fun _ => Sum.inr wRespOK

/-
  The claims.
-/

/-- C1: for every `max_retries = n ≥ 0` and every operation that on
every attempt raises an exception in the configured retryable set, the
wrapper invokes the operation exactly `n + 1` times and raises
`RetryError` whose `last_exception` is the final attempt's exception. -/
theorem retry_exhaustion_wraps_last {α : Type} (p : RetryPolicy) (fname : String)
    (asResp : α → Option Response) (op : Nat → Sum Exc α) (E : Nat → Exc) (n : Nat)
    (hmr : p.max_retries = (n : Int))
    (hop : ∀ i, op i = Sum.inl (E i))
    (hm : ∀ i, matchesExceptClause (E i).cls p.exceptions = true) :
    (retry_with_backoff p fname asResp op).calls = n + 1 ∧
    (retry_with_backoff p fname asResp op).result =
      RunResult.raised (mkRetryError (exhaustedMsg p (E n)) (some (E n))) ∧
    (mkRetryError (exhaustedMsg p (E n)) (some (E n))).last_exception =
      some (E n) := by
  have hrem : (p.max_retries + 1).toNat = n + 1 := by
    rw [hmr]
    omega
  have hop2 : ∀ i, attemptStep asResp (op i) = Sum.inl (E i) := by
    intro i
    rw [hop i, attemptStep_inl]
  have hinv : ((0 : Nat) : Int) + (n : Int) = p.max_retries := by
    rw [hmr]
    omega
  obtain ⟨h1, h2⟩ := retryLoop_allFail p fname asResp op E hop2 hm n 0 none hinv
  rw [Nat.zero_add] at h1
  unfold retry_with_backoff
  rw [hrem]
  exact ⟨h2, h1, mkRetryError_last _ _⟩

/-- Witness for C1 at `max_retries = 2` and an always-`Timeout`
operation: 3 invocations, terminal `RetryError` wrapping the timeout. -/
theorem retry_exhaustion_wraps_last_witness :
    (retry_with_backoff wPolicyA "get_countries" notAResponse wOpA).calls = 3 ∧
    (retry_with_backoff wPolicyA "get_countries" notAResponse wOpA).result =
      RunResult.raised (mkRetryError (exhaustedMsg wPolicyA wTimeout)
        (some wTimeout)) ∧
    (mkRetryError (exhaustedMsg wPolicyA wTimeout) (some wTimeout)).last_exception =
      some wTimeout :=
  retry_exhaustion_wraps_last wPolicyA "get_countries" notAResponse wOpA
    (fun _ => wTimeout) 2 rfl (fun _ => rfl) (fun _ => rfl)

/-- C2: for every `max_retries = n` and every operation that raises a
configured retryable exception on attempts `0 .. k-1` and completes
with a non-retryable-status result on attempt `k ≤ n`, the wrapper
invokes the operation exactly `k + 1` times and returns that result
unchanged. -/
theorem retry_success_after_failures {α : Type} (p : RetryPolicy) (fname : String)
    (asResp : α → Option Response) (op : Nat → Sum Exc α) (E : Nat → Exc)
    (n k : Nat) (a : α)
    (hmr : p.max_retries = (n : Int)) (hk : k ≤ n)
    (hfail : ∀ i, i < k → op i = Sum.inl (E i))
    (hm : ∀ i, i < k → matchesExceptClause (E i).cls p.exceptions = true)
    (hsucc : op k = Sum.inr a)
    (hres : ∀ r, asResp a = some r → r.status_code ∉ RETRYABLE_STATUS_CODES) :
    (retry_with_backoff p fname asResp op).result = RunResult.ok a ∧
    (retry_with_backoff p fname asResp op).calls = k + 1 := by
  have hrem : (p.max_retries + 1).toNat = n + 1 := by
    rw [hmr]
    omega
  unfold retry_with_backoff
  rw [hrem]
  apply retryLoop_succeedsAt p fname asResp op E a k 0 (n + 1) none
  · intro i hi
    rw [Nat.zero_add]
    refine ⟨?_, hm i hi, ?_⟩
    · rw [hfail i hi, attemptStep_inl]
    · rw [hmr]
      omega
  · rw [Nat.zero_add, hsucc]
    exact attemptStep_inr asResp a hres
  · omega

/-- Witness for C2, mirroring `test_retries_on_failure_then_succeeds`
shrunk by one attempt: fail once, succeed on attempt 1 of 3 allowed. -/
theorem retry_success_after_failures_witness :
    (retry_with_backoff wPolicyA "eventually_succeeds" notAResponse wOpD).result =
      RunResult.ok "ok" ∧
    (retry_with_backoff wPolicyA "eventually_succeeds" notAResponse wOpD).calls = 2 :=
  retry_success_after_failures wPolicyA "eventually_succeeds" notAResponse wOpD
    (fun _ => wTimeout) 2 1 "ok" rfl (by omega)
    (fun i hi => by interval_cases i; rfl)
    (fun i hi => by interval_cases i; rfl)
    rfl (fun r hr => by cases hr)

/-- C5: every wait the wrapper performs before attempt `i + 1` equals
`min(base_delay * exponential_base ^ i, max_delay)`; no recorded delay
exceeds `max_delay`; and for the documented default numbers the formula
specialises to `min(2 ^ i, 60)`, i.e. 1, 2, 4, 8, ... capped at 60. -/
theorem retry_delay_schedule {α : Type} (p : RetryPolicy) (fname : String)
    (asResp : α → Option Response) (op : Nat → Sum Exc α) :
    (∀ i, i < (retry_with_backoff p fname asResp op).delays.length →
      (retry_with_backoff p fname asResp op).delays.get? i =
        some (min (p.base_delay * p.exponential_base ^ i) p.max_delay)) ∧
    (∀ d ∈ (retry_with_backoff p fname asResp op).delays, d ≤ p.max_delay) ∧
    (p.base_delay = 1 → p.exponential_base = 2 → p.max_delay = 60 →
      ∀ i, i < (retry_with_backoff p fname asResp op).delays.length →
        (retry_with_backoff p fname asResp op).delays.get? i =
          some (min ((2 : ℚ) ^ i) 60)) := by
  have hidx := retryLoop_delays_idx p fname asResp op (p.max_retries + 1).toNat 0 none
  have hmain : ∀ i, i < (retry_with_backoff p fname asResp op).delays.length →
      (retry_with_backoff p fname asResp op).delays.get? i =
        some (min (p.base_delay * p.exponential_base ^ i) p.max_delay) := by
    intro i hi
    unfold retry_with_backoff at hi ⊢
    have h := hidx i hi
    rw [Nat.zero_add] at h
    exact h
  refine ⟨hmain, ?_, ?_⟩
  · intro d hd
    obtain ⟨i, hi⟩ := List.mem_iff_get?.mp hd
    obtain ⟨hlt, -⟩ := List.get?_eq_some.mp hi
    have h := hmain i hlt
    rw [hi] at h
    injection h with h
    rw [h]
    exact min_le_right _ _
  · intro h1 h2 h3 i hi
    rw [hmain i hi, h1, h2, h3, one_mul]

/-- Witness for C5: with the default numbers and two failing attempts,
the first recorded delay is `min(1 * 2 ^ 0, 60)`. -/
theorem retry_delay_schedule_witness :
    (retry_with_backoff wPolicyA "g" notAResponse wOpB).delays.get? 0 =
      some (min ((1 : ℚ) * 2 ^ 0) 60) :=
  (retry_delay_schedule wPolicyA "g" notAResponse wOpB).1 0 (by decide)

/-- C6: an exception outside the configured retryable set propagates to
the caller immediately and unwrapped on the attempt that raises it,
with no further invocation; an operation that always raises such an
exception is invoked exactly once (the `j = 0` instance). -/
theorem retry_nonretryable_propagates {α : Type} (p : RetryPolicy) (fname : String)
    (asResp : α → Option Response) (op : Nat → Sum Exc α) (E : Nat → Exc)
    (e : Exc) (n j : Nat)
    (hmr : p.max_retries = (n : Int)) (hj : j ≤ n)
    (hfail : ∀ i, i < j → op i = Sum.inl (E i))
    (hm : ∀ i, i < j → matchesExceptClause (E i).cls p.exceptions = true)
    (hraise : op j = Sum.inl e)
    (hnm : matchesExceptClause e.cls p.exceptions = false) :
    (retry_with_backoff p fname asResp op).result = RunResult.raised e ∧
    (retry_with_backoff p fname asResp op).calls = j + 1 := by
  have hrem : (p.max_retries + 1).toNat = n + 1 := by
    rw [hmr]
    omega
  unfold retry_with_backoff
  rw [hrem]
  apply retryLoop_nonRetryableAt p fname asResp op E e j 0 (n + 1) none
  · intro i hi
    rw [Nat.zero_add]
    refine ⟨?_, hm i hi, ?_⟩
    · rw [hfail i hi, attemptStep_inl]
    · rw [hmr]
      omega
  · rw [Nat.zero_add, hraise, attemptStep_inl]
  · exact hnm
  · omega

/-- Witness for C6, mirroring
`test_does_not_retry_unexpected_exception`: a `TypeError` under an
`(exceptions=(ValueError,))` policy propagates with exactly one call. -/
theorem retry_nonretryable_propagates_witness :
    (retry_with_backoff wPolicyV "raises_type_error" notAResponse wOpC).result =
      RunResult.raised wTypeErr ∧
    (retry_with_backoff wPolicyV "raises_type_error" notAResponse wOpC).calls = 1 :=
  retry_nonretryable_propagates wPolicyV "raises_type_error" notAResponse wOpC
    (fun _ => wTypeErr) wTypeErr 3 0 rfl (by omega)
    (fun i hi => absurd hi (by omega)) (fun i hi => absurd hi (by omega))
    rfl rfl

/-- Counterexample to C3 as stated: with the retryable-exception set
`(ValueError,)` — a legal configuration — an operation returning a 500
response on attempt 0 of 3 allowed attempts is NOT treated like a
configured retryable exception: the synthesized `HTTPError` misses the
`except` clause and propagates at once (1 invocation, no retry, no
`RetryError`), though the response is still not returned as a success. -/
theorem retry_status_uncaught_counterexample :
    (500 : Int) ∈ RETRYABLE_STATUS_CODES ∧
    retry_with_backoff ⟨2, 1, 60, 2, [ExcClass.valueErrorExc]⟩ "fetch"
        asResponse wOp500 =
      ⟨RunResult.raised (synthHTTPError wResp500), 1, [], false⟩ ∧
    (retry_with_backoff ⟨2, 1, 60, 2, [ExcClass.valueErrorExc]⟩ "fetch"
        asResponse wOp500).calls ≠ 2 + 1 :=
  ⟨by decide, by decide, by decide⟩

/-- C3 (amended): when the configured retryable-exception set catches
`requests.HTTPError` (the default set does, via `RequestException`), an
operation whose attempts complete with retryable-status responses is
treated exactly like one raising configured retryable exceptions: it is
retried on non-final attempts, raises `RetryError` wrapping the last
synthesized failure on the final attempt, and such a response is never
returned as a success. -/
theorem retry_retryable_status_when_caught (p : RetryPolicy) (fname : String)
    (R : Nat → Response) (n : Nat)
    (hmr : p.max_retries = (n : Int))
    (hcatch : matchesExceptClause ExcClass.httpErrorExc p.exceptions = true)
    (hstatus : ∀ i, (R i).status_code ∈ RETRYABLE_STATUS_CODES) :
    (retry_with_backoff p fname asResponse (fun i => Sum.inr (R i))).calls =
      n + 1 ∧
    (retry_with_backoff p fname asResponse (fun i => Sum.inr (R i))).result =
      RunResult.raised (mkRetryError (exhaustedMsg p (synthHTTPError (R n)))
        (some (synthHTTPError (R n)))) ∧
    ∀ a, (retry_with_backoff p fname asResponse (fun i => Sum.inr (R i))).result ≠
      RunResult.ok a := by
  have hrem : (p.max_retries + 1).toNat = n + 1 := by
    rw [hmr]
    omega
  have hop2 : ∀ i, attemptStep asResponse ((fun i => Sum.inr (R i)) i) =
      Sum.inl (synthHTTPError (R i)) := by
    intro i
    exact attemptStep_retryable_status (R i) (hstatus i)
  have hm2 : ∀ i, matchesExceptClause (synthHTTPError (R i)).cls p.exceptions =
      true := by
    intro i
    exact hcatch
  have hinv : ((0 : Nat) : Int) + (n : Int) = p.max_retries := by
    rw [hmr]
    omega
  obtain ⟨h1, h2⟩ :=
    retryLoop_allFail p fname asResponse (fun i => Sum.inr (R i))
      (fun i => synthHTTPError (R i)) hop2 hm2 n 0 none hinv
  rw [Nat.zero_add] at h1
  unfold retry_with_backoff
  rw [hrem]
  refine ⟨h2, h1, ?_⟩
  intro a h
  rw [h1] at h
  cases h

/-- Witness for the amended C3 at the default set and an
always-500 transport: 3 invocations, terminal `RetryError` wrapping
the synthesized `HTTPError`. -/
theorem retry_retryable_status_when_caught_witness :
    (retry_with_backoff wPolicyA "fetch2" asResponse wOp500).calls = 3 ∧
    (retry_with_backoff wPolicyA "fetch2" asResponse wOp500).result =
      RunResult.raised (mkRetryError (exhaustedMsg wPolicyA
        (synthHTTPError wResp500)) (some (synthHTTPError wResp500))) ∧
    ∀ a, (retry_with_backoff wPolicyA "fetch2" asResponse wOp500).result ≠
      RunResult.ok a :=
  retry_retryable_status_when_caught wPolicyA "fetch2" (fun _ => wResp500) 2
    rfl rfl (fun _ => (by decide : (500 : Int) ∈ RETRYABLE_STATUS_CODES))

/-- Counterexample to C4 as stated: a completed 304 response is not a
2xx success, yet `_handle_response` raises no typed error — it returns
the parsed payload, because `raise_for_status` only raises for status
codes in [400, 600). -/
theorem handle_response_non2xx_counterexample :
    ¬ (200 ≤ wResp304.status_code ∧ wResp304.status_code ≤ 299) ∧
    handle_response wResp304 = Sum.inr wResp304.jsonPayload :=
  ⟨by decide, rfl⟩

/-- C4 (amended): `_handle_response` returns the parsed JSON payload
for every status outside [400, 600) — all 2xx in particular, but also
1xx/3xx — and for statuses in [400, 600) raises the typed error of the
fixed first-match table (401/403 authentication, 404 not-found, 429
rate-limit, otherwise generic API error), every error carrying the
numeric status code and the raw response body verbatim. -/
theorem handle_response_status_mapping (r : Response) :
    (¬ (400 ≤ r.status_code ∧ r.status_code < 600) →
      handle_response r = Sum.inr r.jsonPayload) ∧
    ((400 ≤ r.status_code ∧ r.status_code < 600) →
      ((r.status_code = 401 ∨ r.status_code = 403 →
        handle_response r = Sum.inl
          (Exc.api .authenticationError (authFailMsg r) r.status_code r.text)) ∧
      (r.status_code = 404 →
        handle_response r = Sum.inl
          (Exc.api .notFoundError (notFoundMsg r) r.status_code r.text)) ∧
      (r.status_code = 429 →
        handle_response r = Sum.inl
          (Exc.api .rateLimitError (rateLimitMsg r) r.status_code r.text)) ∧
      (r.status_code ≠ 401 → r.status_code ≠ 403 → r.status_code ≠ 404 →
        r.status_code ≠ 429 →
        handle_response r = Sum.inl
          (Exc.api .apiError (apiFailMsg r) r.status_code r.text)))) :=
  handle_response_cases r

/-- Witness for the amended C4 at a concrete 401 response. -/
theorem handle_response_status_mapping_witness :
    handle_response wResp401 =
      Sum.inl (Exc.api .authenticationError (authFailMsg wResp401)
        401 "unauthorized") :=
  ((handle_response_status_mapping wResp401).2 (by decide)).1 (by decide)

/-- C7: a retry-wrapped adapter call under the default retryable set
whose request completes with 401, 403 or 404 raises the typed
classified error (AuthenticationError for 401/403, NotFoundError for
404, carrying the status code and body) immediately, with exactly one
invocation: these statuses are not retryable-status codes and the
classified errors are outside the default retryable-exception set. -/
theorem adapter_client_errors_single_call (p : RetryPolicy) (fname : String)
    (fetch : Nat → Sum Exc Response) (r : Response)
    (hexc : p.exceptions = DEFAULT_RETRY_EXCEPTIONS)
    (hmr : 0 ≤ p.max_retries)
    (hfetch : fetch 0 = Sum.inr r) :
    ((r.status_code = 401 ∨ r.status_code = 403) →
      (retry_with_backoff p fname notAResponse (apiCall fetch)).calls = 1 ∧
      (retry_with_backoff p fname notAResponse (apiCall fetch)).result =
        RunResult.raised (Exc.api .authenticationError (authFailMsg r)
          r.status_code r.text)) ∧
    (r.status_code = 404 →
      (retry_with_backoff p fname notAResponse (apiCall fetch)).calls = 1 ∧
      (retry_with_backoff p fname notAResponse (apiCall fetch)).result =
        RunResult.raised (Exc.api .notFoundError (notFoundMsg r)
          r.status_code r.text)) := by
  have hrem : ∃ rem, (p.max_retries + 1).toNat = rem + 1 :=
    ⟨(p.max_retries + 1).toNat - 1, by omega⟩
  obtain ⟨rem, hrem⟩ := hrem
  constructor
  · intro hsc
    have hin : 400 ≤ r.status_code ∧ r.status_code < 600 := by
      rcases hsc with h | h <;> omega
    have hhr := ((handle_response_cases r).2 hin).1 hsc
    have hstep : attemptStep notAResponse (apiCall fetch (0 + 0)) =
        Sum.inl (Exc.api .authenticationError (authFailMsg r)
          r.status_code r.text) := by
      rw [attemptStep_notAResponse]
      unfold apiCall
      rw [hfetch]
      exact hhr
    have hnm : matchesExceptClause
        (Exc.api .authenticationError (authFailMsg r) r.status_code r.text).cls
        p.exceptions = false := by
      rw [hexc]
      rfl
    obtain ⟨h1, h2⟩ := retryLoop_nonRetryableAt p fname notAResponse
      (apiCall fetch) (fun _ => wTimeout) _ 0 0 (rem + 1) none
      (fun i hi => absurd hi (by omega)) hstep hnm (by omega)
    unfold retry_with_backoff
    rw [hrem]
    exact ⟨h2, h1⟩
  · intro hsc
    have hin : 400 ≤ r.status_code ∧ r.status_code < 600 := by omega
    have hhr := ((handle_response_cases r).2 hin).2.1 hsc
    have hstep : attemptStep notAResponse (apiCall fetch (0 + 0)) =
        Sum.inl (Exc.api .notFoundError (notFoundMsg r)
          r.status_code r.text) := by
      rw [attemptStep_notAResponse]
      unfold apiCall
      rw [hfetch]
      exact hhr
    have hnm : matchesExceptClause
        (Exc.api .notFoundError (notFoundMsg r) r.status_code r.text).cls
        p.exceptions = false := by
      rw [hexc]
      rfl
    obtain ⟨h1, h2⟩ := retryLoop_nonRetryableAt p fname notAResponse
      (apiCall fetch) (fun _ => wTimeout) _ 0 0 (rem + 1) none
      (fun i hi => absurd hi (by omega)) hstep hnm (by omega)
    unfold retry_with_backoff
    rw [hrem]
    exact ⟨h2, h1⟩

/-- Witness for C7 at a concrete 401 response under the adapter's
default policy: one call, classified authentication error. -/
theorem adapter_client_errors_single_call_witness :
    (retry_with_backoff wPolicyA "get_locations" notAResponse
      (apiCall wFetch401)).calls = 1 ∧
    (retry_with_backoff wPolicyA "get_locations" notAResponse
      (apiCall wFetch401)).result =
      RunResult.raised (Exc.api .authenticationError (authFailMsg wResp401)
        401 "unauthorized") :=
  (adapter_client_errors_single_call wPolicyA "get_locations" wFetch401 wResp401
    rfl (by decide) rfl).1 (by decide)

/-- C8: a logical call through the core — the executor under the
default retryable set wrapping a transport-plus-classifier operation —
produces exactly one of a successful result, a classified error, or a
`RetryError` (the three cases are mutually exclusive by construction:
`ok` and `raised` are distinct constructors and `classifiedClasses`
does not contain the `RetryError` class); and, for any wrapped
operation whatever, the executor never returns as a success a
response-shaped value whose status code is retryable. -/
theorem core_outcome_invariant :
    (∀ (p : RetryPolicy) (fname : String) (fetch : Nat → Sum Exc Response),
      p.exceptions = DEFAULT_RETRY_EXCEPTIONS →
      (∀ i e, fetch i = Sum.inl e →
        matchesExceptClause e.cls DEFAULT_RETRY_EXCEPTIONS = true) →
      (∃ s, (retry_with_backoff p fname notAResponse (apiCall fetch)).result =
          RunResult.ok s) ∨
      (∃ e, (retry_with_backoff p fname notAResponse (apiCall fetch)).result =
          RunResult.raised e ∧ e.cls ∈ classifiedClasses) ∨
      (∃ e, (retry_with_backoff p fname notAResponse (apiCall fetch)).result =
          RunResult.raised e ∧ e.cls = ExcClass.retryErrorCls)) ∧
    (ExcClass.retryErrorCls ∉ classifiedClasses) ∧
    (∀ (α : Type) (p : RetryPolicy) (fname : String)
      (asResp : α → Option Response) (op : Nat → Sum Exc α) (a : α) (r : Response),
      (retry_with_backoff p fname asResp op).result = RunResult.ok a →
      asResp a = some r →
      r.status_code ∉ RETRYABLE_STATUS_CODES) := by
  refine ⟨?_, by decide, ?_⟩
  · intro p fname fetch hexc htrans
    cases hres : (retry_with_backoff p fname notAResponse (apiCall fetch)).result
      with
    | ok s => exact Or.inl ⟨s, rfl⟩
    | raised e =>
      have hop : ∀ i e, apiCall fetch i = Sum.inl e →
          matchesExceptClause e.cls p.exceptions = true ∨
          e.cls ∈ classifiedClasses := by
        intro i e1 h
        unfold apiCall at h
        cases hf : fetch i with
        | inl e2 =>
          rw [hf] at h
          injection h with h
          subst h
          rw [hexc]
          exact Or.inl (htrans i e2 hf)
        | inr r =>
          rw [hf] at h
          exact Or.inr (handle_response_inl_shape r e1 h).1
      unfold retry_with_backoff at hres
      rcases retryLoop_raised_shape p fname (apiCall fetch)
        (fun e => e.cls ∈ classifiedClasses) hop _ 0 none e hres with hc | hP
      · exact Or.inr (Or.inr ⟨e, rfl, hc⟩)
      · exact Or.inr (Or.inl ⟨e, rfl, hP⟩)
  · intro α p fname asResp op a r hres hr
    unfold retry_with_backoff at hres
    exact retryLoop_ok_status p fname asResp op _ 0 none a hres r hr

/-- Witness for C8: a 200-response transport run ends in the success
outcome, and its status code is not retryable. -/
theorem core_outcome_invariant_witness :
    (retry_with_backoff wPolicyA "g2" asResponse wOpOK).result =
      RunResult.ok wRespOK ∧
    wRespOK.status_code ∉ RETRYABLE_STATUS_CODES := by
  refine ⟨by decide, ?_⟩
  exact core_outcome_invariant.2.2 Response wPolicyA "g2" asResponse wOpOK
    wRespOK wRespOK (by decide) rfl

/-- C9: the wrapper's control flow is total: `max_retries = 0` means
exactly one attempt; for `max_retries ≥ 0` the defensive post-loop
branch never executes; and whenever that branch does execute, the
outcome is still the post-loop `RetryError`, never an undefined return
value (the embedding's outcome type has no third alternative, so every
execution returns the operation's result or raises). -/
theorem retry_control_flow_total {α : Type} (p : RetryPolicy) (fname : String)
    (asResp : α → Option Response) (op : Nat → Sum Exc α) :
    (p.max_retries = 0 → (retry_with_backoff p fname asResp op).calls = 1) ∧
    (0 ≤ p.max_retries →
      (retry_with_backoff p fname asResp op).unexpectedExit = false) ∧
    ((retry_with_backoff p fname asResp op).unexpectedExit = true →
      ∃ l, (retry_with_backoff p fname asResp op).result =
        RunResult.raised (mkRetryError (unexpectedExitMsg fname) l)) := by
  refine ⟨?_, ?_, ?_⟩
  · intro h0
    have hrem : (p.max_retries + 1).toNat = 1 := by
      rw [h0]
      rfl
    unfold retry_with_backoff
    rw [hrem]
    exact retryLoop_one_call p fname asResp op 0 none
  · intro h0
    unfold retry_with_backoff
    apply retryLoop_no_unexpected p fname asResp op (p.max_retries + 1).toNat
      0 none (by omega)
    omega
  · intro h
    unfold retry_with_backoff at h ⊢
    exact retryLoop_unexpected_shape p fname asResp op _ 0 none h

/-- Witness for C9 at `max_retries = 0` and an always-failing
operation: one call, and the defensive branch did not run. -/
theorem retry_control_flow_total_witness :
    (retry_with_backoff wPolicyZero "once" notAResponse wOpA).calls = 1 ∧
    (retry_with_backoff wPolicyZero "once" notAResponse wOpA).unexpectedExit =
      false :=
  ⟨(retry_control_flow_total wPolicyZero "once" notAResponse wOpA).1 rfl,
    (retry_control_flow_total wPolicyZero "once" notAResponse wOpA).2.1
      (by decide)⟩

/-- C10: called with `max_retries < 0`, the wrapper's `range` is empty:
the operation is never invoked and the defensive post-loop branch
raises `RetryError` with `last_exception = None`. -/
theorem retry_negative_max_retries {α : Type} (p : RetryPolicy) (fname : String)
    (asResp : α → Option Response) (op : Nat → Sum Exc α)
    (h : p.max_retries < 0) :
    retry_with_backoff p fname asResp op =
      ⟨RunResult.raised (mkRetryError (unexpectedExitMsg fname) none),
        0, [], true⟩ ∧
    (mkRetryError (unexpectedExitMsg fname) none).last_exception = none := by
  have hrem : (p.max_retries + 1).toNat = 0 := by omega
  unfold retry_with_backoff
  rw [hrem, retryLoop_zero]
  exact ⟨rfl, rfl⟩

/-- Witness for C10 at `max_retries = -1`. -/
theorem retry_negative_max_retries_witness :
    retry_with_backoff wPolicyNeg "never" notAResponse wOpA =
      ⟨RunResult.raised (mkRetryError (unexpectedExitMsg "never") none),
        0, [], true⟩ ∧
    (mkRetryError (unexpectedExitMsg "never") none).last_exception = none :=
  retry_negative_max_retries wPolicyNeg "never" notAResponse wOpA (by decide)

end AirQualityETL
